import Mathlib

set_option maxRecDepth 10000

/-!
# Shallow embedding of `src/blocking.rs` (embedded-tls blocking TLS connection)

This file embeds the connection orchestrator of `src/blocking.rs`:
`TlsConnection::{open, write, read, close}` together with the constant
`TLS_RECORD_OVERHEAD = 128`.

Modelling conventions:
* Machine integers (`usize`) are `Nat`; an unchecked `usize` subtraction or
  slice index that would trip Rust's bounds / overflow checks is modelled as
  an explicit `panicked` outcome (checked arithmetic semantics).
* External collaborators (handshake state machine, record codec, transport)
  are oracles passed in as function parameters; each fallible external call
  returns `Except TlsError _` exactly where the source applies `?`.
* The infinite `while` loops of `write` and `open` take a fuel parameter;
  running out of fuel yields a distinguished `diverged` / `fuelOut` outcome,
  which models a loop that never returns (blocking forever), not a return
  value of the source function.
* The caller's byte buffers are `List Nat`; `rustSlice buf s e` is Rust's
  `&buf[s..e]`, `none` when the bounds are invalid (a slice-index panic).
-/

namespace EmbeddedTls

/-- Error type of the library; only the variants `blocking.rs` itself
produces are named, every other error (codec, transport, handshake) is
`other`. -/
inductive TlsError where
  | missingHandshake
  | encodeError
  | connectionClosed
  | internalError
  | other (code : Nat)
deriving DecidableEq, Repr

/-- `AlertLevel` from the alert model; `close` uses `Warning`. -/
inductive AlertLevel where
  | warning
  | fatal
deriving DecidableEq, Repr

/-- `AlertDescription`; the source only ever tests for `CloseNotify`, all
remaining descriptions are collapsed into `other`. -/
inductive AlertDescription where
  | closeNotify
  | other (code : Nat)
deriving DecidableEq, Repr

/-- `Alert::new(level, description)`. -/
structure Alert where
  level : AlertLevel
  description : AlertDescription
deriving DecidableEq, Repr

/-- `ServerHandshake`: the dispatch in `read` only distinguishes
`NewSessionTicket` from every other handshake message. -/
inductive ServerHandshake where
  | newSessionTicket
  | otherHandshake
deriving DecidableEq, Repr

/-- `ServerRecord`: a typed protocol message produced by `decrypt_record`.
Application data carries its decrypted bytes. -/
inductive ServerRecord where
  | applicationData (data : List Nat)
  | alert (a : Alert)
  | changeCipherSpec
  | handshake (h : ServerHandshake)
deriving DecidableEq, Repr

/-- `const TLS_RECORD_OVERHEAD: usize = 128`. -/
def TLS_RECORD_OVERHEAD : Nat := 128

/-- Rust's `&buf[s..e]`: the elements at indices `s ≤ i < e`, or `none`
(an index panic) when `s > e` or `e > buf.len()`. -/
def rustSlice (buf : List Nat) (s e : Nat) : Option (List Nat) :=
  if s ≤ e ∧ e ≤ buf.length then some ((buf.drop s).take (e - s)) else none

/-! ## `TlsConnection::write` -/

/-- Oracles for the external calls `write` makes: `encode` is
`encode_record` (given the current write counter and the chunk referenced by
the `ClientRecord::ApplicationData`, produce the encoded length or fail) and
`transportW` is `delegate.write` for the n-th transmitted record (the source
transport either drains fully or fails). -/
structure WriteEnv where
  encode : Nat → List Nat → Except TlsError Nat
  transportW : Nat → Except TlsError Unit

/-- Result of a `write` call. `ok` / `err` carry the payload chunks handed
to the transport (in transmission order) and the final write counter;
`panicked` is a Rust panic (slice-index or arithmetic overflow); `diverged`
is fuel exhaustion of a loop that never exits. -/
inductive WriteOutcome where
  | ok (ret : Nat) (sent : List (List Nat)) (counter : Nat)
  | err (e : TlsError) (sent : List (List Nat)) (counter : Nat)
  | panicked
  | diverged
deriving DecidableEq, Repr

/-- The `while remaining > 0` loop of `write`, with `wp`/`remaining`/the
write counter threaded explicitly and the chunk arithmetic exactly as in the
source: the chunk is `buf[wp..to_write]` with `to_write = min remaining
maxBlock`. -/
def writeLoop (env : WriteEnv) (cap : Nat) (buf : List Nat) (maxBlock : Nat) :
    Nat → Nat → Nat → List (List Nat) → Nat → WriteOutcome
  | 0, _, _, _, _ => .diverged
  | fuel + 1, wp, remaining, sent, counter =>
    if remaining = 0 then .ok buf.length sent counter
    else
      let toWrite := min remaining maxBlock
      match rustSlice buf wp toWrite with
      | none => .panicked
      | some chunk =>
        match env.encode counter chunk with
        | .error e => .err e sent counter
        | .ok len =>
          if cap < len then .panicked
          else
            match env.transportW sent.length with
            | .error e => .err e sent counter
            | .ok _ =>
              writeLoop env cap buf maxBlock fuel (wp + toWrite) (remaining - toWrite)
                (sent ++ [chunk]) (counter + 1)

/-- `TlsConnection::write`: check `opened`, compute
`max_block_size = record_buf.len() - TLS_RECORD_OVERHEAD` (an unchecked
`usize` subtraction: capacity below the overhead is an overflow panic), then
run the chunk loop. -/
def write (env : WriteEnv) (cap : Nat) (opened : Bool) (counter : Nat)
    (buf : List Nat) (fuel : Nat) : WriteOutcome :=
  if opened then
    if cap < TLS_RECORD_OVERHEAD then .panicked
    else writeLoop env cap buf (cap - TLS_RECORD_OVERHEAD) fuel 0 buf.length [] counter
  else .err .missingHandshake [] counter

/-- An environment in which every encode and every transport write
succeeds. -/
def okEnv : WriteEnv where
  encode := fun _ _ => .ok 0
  transportW := fun _ => .ok ()

/-! ## `TlsConnection::read` -/

/-- Early exit of the queue-drain loop in `read`: a propagated error
(carrying the caller buffer as the Rust caller would observe it after the
call) or a panic. -/
inductive ReadAbort where
  | err (e : TlsError) (buf : List Nat)
  | panicAbort
deriving DecidableEq, Repr

instance {ε α : Type} [DecidableEq ε] [DecidableEq α] : DecidableEq (Except ε α) := fun x y =>
  match x, y with
  | .ok a, .ok b => decidable_of_iff (a = b) (by simp)
  | .error a, .error b => decidable_of_iff (a = b) (by simp)
  | .ok _, .error _ => isFalse (by simp)
  | .error _, .ok _ => isFalse (by simp)

/-- Result of a `read` call. `ok` carries the returned byte count, the
caller buffer after the call and the unconsumed part of the incoming record
stream; `blocked` means the loop needed another record but the stream was
exhausted (the blocking transport would wait forever). -/
inductive ReadOutcome where
  | ok (n : Nat) (buf : List Nat) (rest : List (Except TlsError (List ServerRecord)))
  | err (e : TlsError) (buf : List Nat)
  | panicked
  | blocked (buf : List Nat)
deriving DecidableEq, Repr

/-- The `while let Some(record) = records.dequeue()` dispatch loop of
`read`, draining one decrypted queue. Mirrors the source arm by arm:
application data is length-checked against the full caller buffer
(`buf.len() < data.len()`), copied to the buffer start
(`buf[..to_copy]`), and `remaining -= to_copy` is an unchecked `usize`
subtraction; a close-notify alert is `ConnectionClosed`, any other alert or
a `ChangeCipherSpec` is `InternalError`; `NewSessionTicket` is skipped; any
other message is `unimplemented!()`, a panic. -/
def processQueue : List ServerRecord → List Nat → Nat → Except ReadAbort (List Nat × Nat)
  | [], buf, remaining => .ok (buf, remaining)
  | .applicationData data :: rest, buf, remaining =>
    if buf.length < data.length then .error (.err .encodeError buf)
    else
      let toCopy := min data.length buf.length
      let buf1 := data.take toCopy ++ buf.drop toCopy
      if remaining < toCopy then .error .panicAbort
      else processQueue rest buf1 (remaining - toCopy)
  | .alert a :: _, buf, _ =>
    if a.description = .closeNotify then .error (.err .connectionClosed buf)
    else .error (.err .internalError buf)
  | .changeCipherSpec :: _, buf, _ => .error (.err .internalError buf)
  | .handshake .newSessionTicket :: rest, buf, remaining => processQueue rest buf remaining
  | .handshake .otherHandshake :: _, _, _ => .error .panicAbort

/-- The outer `while remaining == buf.len()` loop of `read`. One element of
`incoming` is the combined result of one `decode_record_blocking` +
`decrypt_record` round: either a propagated error or the decrypted message
queue. On loop exit the source returns `Ok(buf.len() - remaining)`. -/
def readLoop (origLen : Nat) :
    List (Except TlsError (List ServerRecord)) → List Nat → Nat → ReadOutcome
  | [], buf, remaining =>
    if remaining = origLen then .blocked buf else .ok (origLen - remaining) buf []
  | round :: rest, buf, remaining =>
    if remaining = origLen then
      match round with
      | .error e => .err e buf
      | .ok queue =>
        match processQueue queue buf remaining with
        | .error (.err e b) => .err e b
        | .error .panicAbort => .panicked
        | .ok (buf1, remaining1) => readLoop origLen rest buf1 remaining1
    else .ok (origLen - remaining) buf (round :: rest)

/-- `TlsConnection::read`: check `opened`, then pump records with
`remaining` initialised to the caller buffer's length. -/
def read (opened : Bool) (incoming : List (Except TlsError (List ServerRecord)))
    (buf : List Nat) : ReadOutcome :=
  if opened then readLoop buf.length incoming buf buf.length
  else .err .missingHandshake buf

/-! ## `TlsConnection::open` -/

/-- The handshake `State` type: `read`/`write` only care about the initial
`ClientHello` and the terminal `ApplicationData`; every other state is
`otherState`. -/
inductive State where
  | clientHello
  | applicationData
  | otherState (code : Nat)
deriving DecidableEq, Repr

/-- Result of an `open` call, carrying the final value of the `opened`
flag. `fuelOut` is fuel exhaustion: the handshake loop still running (the
source would still be blocked inside it), not a return value. -/
inductive OpenOutcome where
  | ok (opened : Bool)
  | err (e : TlsError) (opened : Bool)
  | fuelOut (opened : Bool)
deriving DecidableEq, Repr

/-- The `loop` of `open`: `step n st` is the n-th call to
`state.process_blocking(...)` from state `st` (an oracle covering
transport, transcript, record buffer, key schedule, config and rng); the
returned state replaces the current one, and the loop stops — setting
`opened` — exactly when it is `ApplicationData`. -/
def openLoop (step : Nat → State → Except TlsError State) :
    Nat → Nat → State → Bool → OpenOutcome
  | 0, _, _, opened => .fuelOut opened
  | fuel + 1, idx, st, opened =>
    match step idx st with
    | .error e => .err e opened
    | .ok st1 =>
      if st1 = State.applicationData then .ok true
      else openLoop step fuel (idx + 1) st1 opened

/-- `TlsConnection::open`: run the state machine from `State::ClientHello`
with the connection's current `opened` flag (false for a fresh
connection). -/
def openConn (step : Nat → State → Except TlsError State) (fuel : Nat)
    (opened : Bool) : OpenOutcome :=
  openLoop step fuel 0 State.clientHello opened

/-! ## `TlsConnection::close` -/

/-- Result of a `close` call: on success the recovered resources — the
rebuilt `TlsContext` (config, rng, record buffer) together with the
transport, abstracted as the `α`-value the connection owned — are returned
with the final write counter; on error nothing is returned. -/
inductive CloseOutcome (α : Type) where
  | ok (resources : α) (counter : Nat)
  | err (e : TlsError)
  | panicked
deriving DecidableEq, Repr

/-- The `ClientRecord::Alert` built by `close`: a warning-level
close-notify alert paired with its encrypt flag, which is `true` exactly in
the `self.opened` branch of the source's `if`. -/
def closeRecord (opened : Bool) : Alert × Bool :=
  if opened then (⟨.warning, .closeNotify⟩, true)
  else (⟨.warning, .closeNotify⟩, false)

/-- `TlsConnection::close`: build the alert record, `encode_record` it
(`encode` is given the record and the current write counter and yields the
encoded length or fails), transmit `record_buf[..len]`, increment the write
counter, and hand `(TlsContext, Socket)` — abstracted as `res` — back to
the caller. -/
def close {α : Type} (res : α) (encode : Alert × Bool → Nat → Except TlsError Nat)
    (transportW : Except TlsError Unit) (cap : Nat) (opened : Bool)
    (counter : Nat) : CloseOutcome α :=
  let record := closeRecord opened
  match encode record counter with
  | .error e => .err e
  | .ok len =>
    if cap < len then .panicked
    else
      match transportW with
      | .error e => .err e
      | .ok _ => .ok res (counter + 1)

/-! ## Shared helper lemmas -/

/-- Once `remaining` differs from the original buffer length, the outer
`read` loop exits immediately with the byte count, touching no further
element of the incoming stream. -/
theorem readLoop_exit (origLen : Nat) (inc : List (Except TlsError (List ServerRecord)))
    (buf : List Nat) (remaining : Nat) (h : remaining ≠ origLen) :
    readLoop origLen inc buf remaining = .ok (origLen - remaining) buf inc := by
  cases inc with
  | nil => simp [readLoop, h]
  | cons r rest => simp [readLoop, h]

/-- Draining a queue holding a single application-data message that fits
the caller buffer copies it to the buffer start and lowers `remaining`. -/
theorem processQueue_appData_fits (data buf : List Nat) (h : data.length ≤ buf.length) :
    processQueue [ServerRecord.applicationData data] buf buf.length =
      .ok (data ++ buf.drop data.length, buf.length - data.length) := by
  have h1 : ¬ buf.length < data.length := Nat.not_lt.mpr h
  simp [processQueue, h1, Nat.min_eq_left h, List.take_length]

/-! ## Claim theorems -/

/-- Claim C1: the spec's chunking contract — each record carries the next
contiguous slice of `P` and the transmitted slices concatenate back to `P`
— fails on the code: `write` slices `buf[wp..to_write]` (an absolute start
against a chunk-length end) instead of `buf[wp..wp+to_write]`. With
capacity 200 (max chunk 72), a 144-byte payload "succeeds" but the second
record carries the empty slice `buf[72..72]`, so the concatenation of the
transmitted slices is only the first 72 bytes of `P`; a 150-byte payload
panics on the third chunk's inverted slice bounds `buf[144..6]`. -/
theorem c1_write_chunking_bug :
    write okEnv 200 true 0 (List.range 144) 5 =
      .ok 144 [List.range 72, []] 2 ∧
    List.range 72 ++ ([] : List Nat) ≠ List.range 144 ∧
    write okEnv 200 true 0 (List.range 150) 5 = .panicked :=
  ⟨by decide, by decide, by decide⟩

/-- Claim C2 counterexample: the claim predicts that an application-data
message longer than the caller buffer's *remaining* space makes `read`
fail with the encode/capacity error and copy nothing. On the code, with a
10-byte buffer and one decrypted queue holding a 4-byte message followed
by an 8-byte message (8 exceeds the remaining 6), `read` instead copies
the 8 bytes over the start of the buffer and then panics on the unchecked
`remaining -= to_copy` underflow — not the predicted error return. -/
theorem c2_remaining_space_counterexample :
    read true [Except.ok [ServerRecord.applicationData [1, 2, 3, 4],
        ServerRecord.applicationData [5, 5, 5, 5, 5, 5, 5, 5]]]
      (List.replicate 10 0) = .panicked ∧
    read true [Except.ok [ServerRecord.applicationData [1, 2, 3, 4],
        ServerRecord.applicationData [5, 5, 5, 5, 5, 5, 5, 5]]]
      (List.replicate 10 0) ≠
      ReadOutcome.err TlsError.encodeError (List.replicate 10 0) :=
  ⟨by decide, by decide⟩

/-- Claim C2 (amended): the capacity check `read` performs compares a
dequeued application-data message against the caller buffer's *total*
length, not its remaining space: whenever the message's data is longer
than the whole buffer, the dispatch fails with the encode/capacity error
and copies none of that message's bytes (the caller buffer is returned
unchanged), both at the queue-drain level and through a full `read`
call. -/
theorem c2_total_capacity_check :
    (∀ (data : List Nat) (rest : List ServerRecord) (buf : List Nat) (remaining : Nat),
      buf.length < data.length →
      processQueue (ServerRecord.applicationData data :: rest) buf remaining =
        .error (.err .encodeError buf)) ∧
    (∀ (data : List Nat) (queue : List ServerRecord)
      (inc : List (Except TlsError (List ServerRecord))) (buf : List Nat),
      buf.length < data.length →
      read true (Except.ok (ServerRecord.applicationData data :: queue) :: inc) buf =
        .err .encodeError buf) := by
  constructor
  · intro data rest buf remaining h
    simp [processQueue, h]
  · intro data queue inc buf h
    simp [read, readLoop, processQueue, h]

/-- Claim C2 witness: a 2-byte message against a 1-byte buffer trips the
capacity error with the buffer unchanged. -/
theorem c2_total_capacity_check_witness :
    processQueue [ServerRecord.applicationData [1, 2]] [0] 5 =
      .error (.err .encodeError [0]) ∧
    read true [Except.ok [ServerRecord.applicationData [1, 2]]] [0] =
      .err .encodeError [0] :=
  ⟨c2_total_capacity_check.1 [1, 2] [] [0] 5 (by decide),
   c2_total_capacity_check.2 [1, 2] [] [] [0] (by decide)⟩

/-- Claim C4: on a connection that was never opened, `write` returns the
handshake-missing error having transmitted no record and left the write
counter untouched, and `read` returns the handshake-missing error with the
caller buffer unchanged — both for every possible input and transport
stream, so no transport operation can have occurred. -/
theorem c4_missing_handshake_no_io :
    ∀ (env : WriteEnv) (cap counter : Nat) (buf : List Nat) (fuel : Nat)
      (incoming : List (Except TlsError (List ServerRecord))) (rbuf : List Nat),
      write env cap false counter buf fuel = .err .missingHandshake [] counter ∧
      read false incoming rbuf = .err .missingHandshake rbuf := by
  intro env cap counter buf fuel incoming rbuf
  exact ⟨rfl, rfl⟩

/-- Claim C6: a post-handshake NewSessionTicket message is consumed
silently — the queue drain continues on the untouched buffer with nothing
copied and no error — and a ticket followed by an application-data message,
whether in the same decrypted record or in the next one (the loop decodes
another record when the queue drained without copying), yields exactly the
application data to the caller without surfacing the ticket. -/
theorem c6_session_ticket_ignored :
    (∀ (rest : List ServerRecord) (buf : List Nat) (remaining : Nat),
      processQueue (ServerRecord.handshake .newSessionTicket :: rest) buf remaining =
        processQueue rest buf remaining) ∧
    (∀ (data : List Nat) (inc : List (Except TlsError (List ServerRecord))) (buf : List Nat),
      data ≠ [] → data.length ≤ buf.length →
      read true (Except.ok [ServerRecord.handshake .newSessionTicket,
          ServerRecord.applicationData data] :: inc) buf =
        .ok data.length (data ++ buf.drop data.length) inc) ∧
    (∀ (data : List Nat) (inc : List (Except TlsError (List ServerRecord))) (buf : List Nat),
      data ≠ [] → data.length ≤ buf.length →
      read true (Except.ok [ServerRecord.handshake .newSessionTicket] ::
          Except.ok [ServerRecord.applicationData data] :: inc) buf =
        .ok data.length (data ++ buf.drop data.length) inc) := by
  have key : ∀ (data : List Nat) (inc : List (Except TlsError (List ServerRecord)))
      (buf : List Nat), data ≠ [] → data.length ≤ buf.length →
      readLoop buf.length (Except.ok [ServerRecord.applicationData data] :: inc)
        buf buf.length = .ok data.length (data ++ buf.drop data.length) inc := by
    intro data inc buf hne hle
    have hlen : 0 < data.length := List.length_pos.mpr hne
    have hrem : buf.length - data.length ≠ buf.length := by omega
    simp [readLoop, processQueue_appData_fits data buf hle,
      readLoop_exit _ _ _ _ hrem, Nat.sub_sub_self hle]
  refine ⟨fun rest buf remaining => rfl, ?_, ?_⟩
  · intro data inc buf hne hle
    have hlen : 0 < data.length := List.length_pos.mpr hne
    have hrem : buf.length - data.length ≠ buf.length := by omega
    have hq : processQueue [ServerRecord.handshake .newSessionTicket,
        ServerRecord.applicationData data] buf buf.length =
        processQueue [ServerRecord.applicationData data] buf buf.length := rfl
    simp [read, readLoop, hq, processQueue_appData_fits data buf hle,
      readLoop_exit _ _ _ _ hrem, Nat.sub_sub_self hle]
  · intro data inc buf hne hle
    have hlen : 0 < data.length := List.length_pos.mpr hne
    have hrem : buf.length - data.length ≠ buf.length := by omega
    have hq : processQueue [ServerRecord.handshake .newSessionTicket] buf buf.length =
        .ok (buf, buf.length) := rfl
    simp [read, readLoop, hq, processQueue_appData_fits data buf hle,
      readLoop_exit _ _ _ _ hrem, Nat.sub_sub_self hle]

/-- Claim C6 witness: a ticket then a 2-byte message into a 3-byte buffer
returns the 2 bytes, in both the same-record and next-record layouts. -/
theorem c6_session_ticket_ignored_witness :
    read true [Except.ok [ServerRecord.handshake .newSessionTicket,
        ServerRecord.applicationData [8, 9]]] [0, 0, 0] =
      .ok 2 [8, 9, 0] [] ∧
    read true [Except.ok [ServerRecord.handshake .newSessionTicket],
        Except.ok [ServerRecord.applicationData [8, 9]]] [0, 0, 0] =
      .ok 2 [8, 9, 0] [] :=
  ⟨c6_session_ticket_ignored.2.1 [8, 9] [] [0, 0, 0] (by decide) (by decide),
   c6_session_ticket_ignored.2.2 [8, 9] [] [0, 0, 0] (by decide) (by decide)⟩

/-- Claim C8: a dequeued alert fails the read with the connection-closed
error when its description is close_notify and with the internal error for
every other description; a dequeued ChangeCipherSpec fails with the
internal error — both at the queue-drain level (whatever precedes in the
buffer state) and through a full `read` call. -/
theorem c8_alert_dispatch :
    (∀ (a : Alert) (rest : List ServerRecord) (buf : List Nat) (remaining : Nat),
      processQueue (ServerRecord.alert a :: rest) buf remaining =
        .error (.err (if a.description = AlertDescription.closeNotify then
          TlsError.connectionClosed else TlsError.internalError) buf)) ∧
    (∀ (rest : List ServerRecord) (buf : List Nat) (remaining : Nat),
      processQueue (ServerRecord.changeCipherSpec :: rest) buf remaining =
        .error (.err .internalError buf)) ∧
    (∀ (a : Alert) (queue : List ServerRecord)
      (inc : List (Except TlsError (List ServerRecord))) (buf : List Nat),
      read true (Except.ok (ServerRecord.alert a :: queue) :: inc) buf =
        .err (if a.description = AlertDescription.closeNotify then
          TlsError.connectionClosed else TlsError.internalError) buf) ∧
    (∀ (queue : List ServerRecord) (inc : List (Except TlsError (List ServerRecord)))
      (buf : List Nat),
      read true (Except.ok (ServerRecord.changeCipherSpec :: queue) :: inc) buf =
        .err .internalError buf) := by
  have h1 : ∀ (a : Alert) (rest : List ServerRecord) (buf : List Nat) (remaining : Nat),
      processQueue (ServerRecord.alert a :: rest) buf remaining =
        .error (.err (if a.description = AlertDescription.closeNotify then
          TlsError.connectionClosed else TlsError.internalError) buf) := by
    intro a rest buf remaining
    by_cases hd : a.description = AlertDescription.closeNotify
    · simp [processQueue, hd]
    · simp [processQueue, hd]
  refine ⟨h1, fun rest buf remaining => rfl, ?_, ?_⟩
  · intro a queue inc buf
    simp [read, readLoop, h1 a queue buf buf.length]
  · intro queue inc buf
    have hq : processQueue (ServerRecord.changeCipherSpec :: queue) buf buf.length =
        .error (.err .internalError buf) := rfl
    simp [read, readLoop, hq]

/-- Claim C9: the record-pump loop of `read` continues only while zero
bytes have been copied: as soon as `remaining` differs from the caller
buffer's length the loop returns the copied byte count with the rest of
the incoming stream untouched, and a full `read` whose first decrypted
queue copies at least one byte consumes exactly that one record. -/
theorem c9_single_record_stop :
    (∀ (origLen : Nat) (inc : List (Except TlsError (List ServerRecord)))
      (buf : List Nat) (remaining : Nat), remaining ≠ origLen →
      readLoop origLen inc buf remaining = .ok (origLen - remaining) buf inc) ∧
    (∀ (queue : List ServerRecord) (inc : List (Except TlsError (List ServerRecord)))
      (buf buf1 : List Nat) (rem1 : Nat),
      processQueue queue buf buf.length = .ok (buf1, rem1) → rem1 ≠ buf.length →
      read true (Except.ok queue :: inc) buf = .ok (buf.length - rem1) buf1 inc) := by
  refine ⟨readLoop_exit, ?_⟩
  intro queue inc buf buf1 rem1 hq hrem
  simp [read, readLoop, hq, readLoop_exit _ _ _ _ hrem]

/-- Claim C9 witness: a queue copying one byte into a 2-byte buffer makes
`read` return 1 without consuming the second incoming record. -/
theorem c9_single_record_stop_witness :
    read true [Except.ok [ServerRecord.applicationData [7]],
        Except.ok [ServerRecord.changeCipherSpec]] [0, 0] =
      .ok 1 [7, 0] [Except.ok [ServerRecord.changeCipherSpec]] :=
  c9_single_record_stop.2 [ServerRecord.applicationData [7]]
    [Except.ok [ServerRecord.changeCipherSpec]] [0, 0] [7, 0] 1
    (by decide) (by decide)

/-- The final write counter of a `write` call that returned (with `Ok` or
with a propagated error) exceeds the starting counter by exactly the number
of records handed to the transport. -/
def counterMatches (c0 : Nat) : WriteOutcome → Prop
  | .ok _ sent c => c = c0 + sent.length
  | .err _ sent c => c = c0 + sent.length
  | .panicked => True
  | .diverged => True

/-- Helper invariant for the chunk loop: the write counter and the
transmitted-record list grow in lockstep, so their difference is constant
across the recursion. -/
theorem writeLoop_counter_inv (env : WriteEnv) (cap : Nat) (buf : List Nat)
    (maxBlock : Nat) : ∀ (fuel wp remaining : Nat) (sent : List (List Nat)) (c : Nat),
    match writeLoop env cap buf maxBlock fuel wp remaining sent c with
    | .ok _ s1 c1 => c1 + sent.length = c + s1.length
    | .err _ s1 c1 => c1 + sent.length = c + s1.length
    | .panicked => True
    | .diverged => True := by
  intro fuel
  induction fuel with
  | zero => intro wp remaining sent c; simp [writeLoop]
  | succ n ih =>
    intro wp remaining sent c
    by_cases hr : remaining = 0
    · simp [writeLoop, hr]
    · rw [writeLoop]
      simp only [if_neg hr]
      cases hslice : rustSlice buf wp (min remaining maxBlock) with
      | none => simp
      | some chunk =>
        simp only []
        cases henc : env.encode c chunk with
        | error e => simp
        | ok len =>
          simp only []
          by_cases hlen : cap < len
          · simp [hlen]
          · simp only [if_neg hlen]
            cases htr : env.transportW sent.length with
            | error e => simp
            | ok u =>
              simp only []
              have h2 := ih (wp + min remaining maxBlock) (remaining - min remaining maxBlock)
                (sent ++ [chunk]) (c + 1)
              cases hres : writeLoop env cap buf maxBlock n (wp + min remaining maxBlock)
                  (remaining - min remaining maxBlock) (sent ++ [chunk]) (c + 1) with
              | ok r s1 c1 =>
                rw [hres] at h2
                simp only [List.length_append, List.length_cons, List.length_nil] at h2 ⊢
                omega
              | err e s1 c1 =>
                rw [hres] at h2
                simp only [List.length_append, List.length_cons, List.length_nil] at h2 ⊢
                omega
              | panicked => simp
              | diverged => simp

/-- Claim C3: on every `write` call — whatever the record codec and the
transport do — the key schedule's write counter is incremented exactly once
per record actually handed to the transport: both on success and on a
propagated encode/transport error, the final counter is the starting
counter plus the number of transmitted records, so a record whose encode or
transport step fails contributes no increment. -/
theorem c3_counter_per_transmitted_record :
    ∀ (env : WriteEnv) (cap : Nat) (opened : Bool) (c0 : Nat) (buf : List Nat)
      (fuel : Nat), counterMatches c0 (write env cap opened c0 buf fuel) := by
  intro env cap opened c0 buf fuel
  cases opened with
  | false => simp [write, counterMatches]
  | true =>
    by_cases hcap : cap < TLS_RECORD_OVERHEAD
    · simp [write, hcap, counterMatches]
    · have h := writeLoop_counter_inv env cap buf (cap - TLS_RECORD_OVERHEAD)
        fuel 0 buf.length [] c0
      have hw : write env cap true c0 buf fuel =
          writeLoop env cap buf (cap - TLS_RECORD_OVERHEAD) fuel 0 buf.length [] c0 := by
        simp [write, hcap]
      rw [hw]
      cases hres : writeLoop env cap buf (cap - TLS_RECORD_OVERHEAD) fuel 0
          buf.length [] c0 with
      | ok r s1 c1 =>
        rw [hres] at h
        simp only [List.length_nil] at h
        simpa [counterMatches] using h
      | err e s1 c1 =>
        rw [hres] at h
        simp only [List.length_nil] at h
        simpa [counterMatches] using h
      | panicked => simp [counterMatches]
      | diverged => simp [counterMatches]

/-- Claim C5: starting from a fresh connection (`opened = false`), `open`
has exactly two return outcomes — success with the `opened` flag set to
true (reached only when a transition returns the terminal ApplicationData
state) or the error of the failing transition with `opened` left false;
`fuelOut` is not a return but the loop still running. Additionally, a first
transition that errors has its error propagated unchanged, and a first
transition that reaches the terminal state yields success. -/
theorem c5_open_dichotomy :
    (∀ (step : Nat → State → Except TlsError State) (fuel : Nat),
      openConn step fuel false = .ok true ∨
      (∃ e, openConn step fuel false = .err e false) ∨
      openConn step fuel false = .fuelOut false) ∧
    (∀ (step : Nat → State → Except TlsError State) (fuel : Nat) (e : TlsError),
      step 0 State.clientHello = .error e →
      openConn step (fuel + 1) false = .err e false) ∧
    (∀ (step : Nat → State → Except TlsError State) (fuel : Nat),
      step 0 State.clientHello = .ok State.applicationData →
      openConn step (fuel + 1) false = .ok true) := by
  refine ⟨?_, ?_, ?_⟩
  · intro step fuel
    have h : ∀ (f idx : Nat) (st : State),
        openLoop step f idx st false = .ok true ∨
        (∃ e, openLoop step f idx st false = .err e false) ∨
        openLoop step f idx st false = .fuelOut false := by
      intro f
      induction f with
      | zero => intro idx st; right; right; rfl
      | succ n ih =>
        intro idx st
        rw [openLoop]
        cases hs : step idx st with
        | error e => right; left; exact ⟨e, rfl⟩
        | ok st1 =>
          by_cases hst : st1 = State.applicationData
          · left; simp [hst]
          · simp only [if_neg hst]
            exact ih (idx + 1) st1
    exact h fuel 0 State.clientHello
  · intro step fuel e hs
    rw [openConn, openLoop, hs]
  · intro step fuel hs
    rw [openConn, openLoop, hs]
    simp

/-- Claim C5 witness: a transition oracle failing at once propagates its
error with `opened` false, and one reaching the terminal state at once
returns success with `opened` true. -/
theorem c5_open_dichotomy_witness :
    openConn (fun _ _ => Except.error (TlsError.other 7)) 4 false =
      .err (TlsError.other 7) false ∧
    openConn (fun _ _ => Except.ok State.applicationData) 4 false = .ok true :=
  ⟨c5_open_dichotomy.2.1 (fun _ _ => Except.error (TlsError.other 7)) 3 (.other 7) rfl,
   c5_open_dichotomy.2.2 (fun _ _ => Except.ok State.applicationData) 3 rfl⟩

/-- Claim C7: `close` builds a warning-level close_notify alert whose
encrypt flag equals the `opened` flag; an encode error or a transport error
is propagated unchanged and returns no resources (the `err` outcome carries
none); when both succeed, the write counter is incremented once and the
recovered context-and-transport bundle is handed back to the caller. -/
theorem c7_close_behavior :
    ∀ {α : Type} (res : α) (encode : Alert × Bool → Nat → Except TlsError Nat)
      (tw : Except TlsError Unit) (cap : Nat) (opened : Bool) (c0 : Nat),
      closeRecord opened = (⟨AlertLevel.warning, AlertDescription.closeNotify⟩, opened) ∧
      (∀ e, encode (closeRecord opened) c0 = .error e →
        close res encode tw cap opened c0 = .err e) ∧
      (∀ len e, encode (closeRecord opened) c0 = .ok len → len ≤ cap →
        tw = .error e → close res encode tw cap opened c0 = .err e) ∧
      (∀ len, encode (closeRecord opened) c0 = .ok len → len ≤ cap → tw = .ok () →
        close res encode tw cap opened c0 = .ok res (c0 + 1)) := by
  intro α res encode tw cap opened c0
  refine ⟨by cases opened <;> rfl, ?_, ?_, ?_⟩
  · intro e he
    simp [close, he]
  · intro len e he hlen htw
    simp [close, he, htw, Nat.not_lt.mpr hlen]
  · intro len he hlen htw
    simp [close, he, htw, Nat.not_lt.mpr hlen]

/-- Claim C7 witness: with a 130-byte record buffer, an encoder yielding a
5-byte record and a transport that succeeds, `close` on an opened
connection returns the resources with the counter bumped from 0 to 1; with
a failing encoder the error comes back instead. -/
theorem c7_close_behavior_witness :
    close (42 : Nat) (fun _ _ => Except.ok 5) (Except.ok ()) 130 true 0 =
      .ok 42 1 ∧
    close (42 : Nat) (fun _ _ => Except.error (TlsError.other 3)) (Except.ok ())
      130 false 0 = .err (TlsError.other 3) :=
  ⟨(c7_close_behavior 42 (fun _ _ => Except.ok 5) (Except.ok ()) 130 true 0).2.2.2
      5 rfl (by decide) rfl,
   (c7_close_behavior 42 (fun _ _ => Except.error (TlsError.other 3)) (Except.ok ())
      130 false 0).2.1 (.other 3) rfl⟩

/-- Helper: with a zero usable block size the chunk loop can never reach
the success exit — `remaining` never decreases. -/
theorem writeLoop_zero_block_not_ok (env : WriteEnv) (cap : Nat) (buf : List Nat) :
    ∀ (fuel wp remaining : Nat) (sent : List (List Nat)) (c : Nat), remaining ≠ 0 →
      ∀ r s1 c1, writeLoop env cap buf 0 fuel wp remaining sent c ≠ .ok r s1 c1 := by
  intro fuel
  induction fuel with
  | zero => intro wp remaining sent c hr r s1 c1; simp [writeLoop]
  | succ n ih =>
    intro wp remaining sent c hr r s1 c1
    rw [writeLoop]
    simp only [if_neg hr, Nat.min_zero]
    cases hslice : rustSlice buf wp 0 with
    | none => simp
    | some chunk =>
      simp only []
      cases henc : env.encode c chunk with
      | error e => simp
      | ok len =>
        simp only []
        by_cases hlen : cap < len
        · simp [hlen]
        · simp only [if_neg hlen]
          cases htr : env.transportW sent.length with
          | error e => simp
          | ok u =>
            simp only [Nat.add_zero, Nat.sub_zero]
            exact ih (wp + 0) remaining (sent ++ [chunk]) (c + 1) hr r s1 c1

/-- Helper: at capacity exactly 128 with a one-byte payload and an
always-succeeding codec and transport, the chunk loop spins forever (it
keeps sending empty records without consuming a byte), so every fuel bound
is exhausted. -/
theorem writeLoop_cap128_diverges :
    ∀ (fuel : Nat) (sent : List (List Nat)) (c : Nat),
      writeLoop okEnv 128 [1] 0 fuel 0 1 sent c = .diverged := by
  intro fuel
  induction fuel with
  | zero => intro sent c; rfl
  | succ n ih =>
    intro sent c
    rw [writeLoop]
    simp only []
    exact ih (sent ++ [[]]) (c + 1)

/-- Claim C10: `write` computes the usable chunk size with an unguarded
`usize` subtraction `record_buf.len() - TLS_RECORD_OVERHEAD`: every opened
connection whose record buffer capacity is below 128 panics (an arithmetic
overflow, not an error return) on any `write`; at capacity exactly 128 a
non-empty `write` can never return successfully (with an all-succeeding
environment it spins forever), so `write` is total only when the capacity
strictly exceeds the overhead constant. -/
theorem c10_overhead_underflow :
    (∀ (env : WriteEnv) (cap c0 : Nat) (buf : List Nat) (fuel : Nat),
      cap < TLS_RECORD_OVERHEAD → write env cap true c0 buf fuel = .panicked) ∧
    (∀ (env : WriteEnv) (c0 : Nat) (buf : List Nat) (fuel : Nat), buf ≠ [] →
      ∀ r sent c, write env 128 true c0 buf fuel ≠ .ok r sent c) ∧
    (∀ (c0 fuel : Nat), write okEnv 128 true c0 [1] fuel = .diverged) := by
  refine ⟨?_, ?_, ?_⟩
  · intro env cap c0 buf fuel hcap
    simp [write, hcap]
  · intro env c0 buf fuel hne r sent c
    have hlen : buf.length ≠ 0 := by
      simpa [List.length_eq_zero] using hne
    have h := writeLoop_zero_block_not_ok env 128 buf fuel 0 buf.length [] c0 hlen r sent c
    simpa [write, TLS_RECORD_OVERHEAD] using h
  · intro c0 fuel
    have h := writeLoop_cap128_diverges fuel [] c0
    simpa [write, TLS_RECORD_OVERHEAD] using h

/-- Claim C10 witness: a 100-byte record buffer panics on a one-byte write;
a 128-byte buffer never lets a one-byte write succeed and, with the
all-succeeding environment, diverges. -/
theorem c10_overhead_underflow_witness :
    write okEnv 100 true 0 [5] 3 = .panicked ∧
    write okEnv 128 true 0 [5] 2 ≠ .ok 1 [[5]] 1 ∧
    write okEnv 128 true 0 [1] 6 = .diverged :=
  ⟨c10_overhead_underflow.1 okEnv 100 0 [5] 3 (by decide),
   c10_overhead_underflow.2.1 okEnv 0 [5] 2 (by decide) 1 [[5]] 1,
   c10_overhead_underflow.2.2 0 6⟩

end EmbeddedTls
